import Mathlib

/-!
Shallow embedding of the gymslots repository.

The repository has two variants of one procedure `allocate_slots`:
  * the base variant (`Gym/allocator.py`): three preference columns, cells read
    with `row[pref_key]` (a missing key raises `KeyError`), header extended with
    "Allocated Slot" unconditionally;
  * the extended variant (`data/iiitk.py`): nine preference columns, cells read
    with `row.get(pref, "").strip()`, a strict email-domain check that
    short-circuits preference matching, header extended only when the column is
    not already present.

Rows produced by Python's `csv.DictReader` map each header field to either a
string or `None` (the fill value for short rows).  We model a cell value as
`PyVal` (`str s` or `none`), a row as an association list `String × PyVal`
with dict semantics (lookup and assignment act on the first occurrence of a
key), and the capacity table as an association list `String × Int` — `Int`
so that the spec's "never goes negative" is a meaningful statement.
Exceptions (`KeyError` from `row[k]`, `AttributeError` from `None.strip()`)
are modelled by `Except Unit`.
-/

/-- A Python cell value as produced by `csv.DictReader`: a string, or `None`
(the fill value for a row shorter than the header). -/
inductive PyVal where
  | str : String → PyVal
  | none : PyVal
deriving DecidableEq, Repr

deriving instance DecidableEq for Except

/-- A row dict: association list with dict semantics (keys unique in practice;
operations act on the first occurrence). -/
abbrev Row := List (String × PyVal)

/-- The capacity table: slot label to remaining capacity. -/
abbrev Caps := List (String × Int)

/-- Dict lookup `row[k]` as an `Option` (first occurrence of the key). -/
def rowGet : Row → String → Option PyVal
  | [], _ => Option.none
  | (k, v) :: rest, s => if k = s then some v else rowGet rest s

/-- Dict assignment `row[k] = v`: replaces the value at the first occurrence of
the key, or appends the pair at the end when the key is absent (Python dicts
preserve insertion order). -/
def rowSet : Row → String → PyVal → Row
  | [], s, v => [(s, v)]
  | (k, w) :: rest, s, v =>
    if k = s then (k, v) :: rest else (k, w) :: rowSet rest s v

/-- Python `row.get(k, d)`. -/
def pyGetD (row : Row) (k : String) (d : PyVal) : PyVal :=
  (rowGet row k).getD d

/-- Python `str.strip()` with no argument: remove leading and trailing
whitespace (modelled character-wise so that the kernel can evaluate it). -/
def pyTrimStr (s : String) : String :=
  String.mk (((s.data.dropWhile Char.isWhitespace).reverse.dropWhile
    Char.isWhitespace).reverse)

/-- Python `str.lower()` (ASCII case mapping suffices for this program). -/
def pyLowerStr (s : String) : String :=
  String.mk (s.data.map Char.toLower)

/-- Python `s.endswith(t)`. -/
def pyEndsWith (s t : String) : Bool :=
  t.data.isSuffixOf s.data

/-- Python `.strip()` on a cell value: strings are trimmed, `None.strip()`
raises `AttributeError`. -/
def pyStrip : PyVal → Except Unit String
  | PyVal.str s => Except.ok (pyTrimStr s)
  | PyVal.none => Except.error ()

/-- Capacity lookup `capacity[s]` (first occurrence of the key). -/
def lookupCap : Caps → String → Option Int
  | [], _ => Option.none
  | (k, c) :: rest, s => if k = s then some c else lookupCap rest s

/-- Python `capacity[slot] -= 1`: decrement the value at the first occurrence
of the key, leaving everything else (order included) unchanged. -/
def decCap : Caps → String → Caps
  | [], _ => []
  | (k, c) :: rest, s =>
    if k = s then (k, c - 1) :: rest else (k, c) :: decCap rest s

/-- The guard `slot in capacity and capacity[slot] > 0` for a string slot. -/
def capAvail (caps : Caps) (s : String) : Bool :=
  match lookupCap caps s with
  | some c => decide (0 < c)
  | Option.none => false

/-- The same guard applied to a raw cell value: `None` is not a key of the
(string-keyed) table, so `None in capacity` is `False`. -/
def pyAvail (caps : Caps) (v : PyVal) : Bool :=
  match v with
  | PyVal.str s => capAvail caps s
  | PyVal.none => false

/-- Python `allocated_slot if allocated_slot else "No slot allocated"`:
`None` and the empty string are both falsy. -/
def outcomeStr (alloc : Option String) : String :=
  match alloc with
  | some s => if s = "" then "No slot allocated" else s
  | Option.none => "No slot allocated"

/-- The per-run loop shared by both variants: process the rows in input order,
threading the capacity table; an exception aborts the run. -/
def allocRun (step : Caps → Row → Except Unit (Row × Caps)) :
    Caps → List Row → Except Unit (List Row × Caps)
  | caps, [] => Except.ok ([], caps)
  | caps, row :: rows =>
    match step caps row with
    | Except.error e => Except.error e
    | Except.ok (row', caps') =>
      match allocRun step caps' rows with
      | Except.error e => Except.error e
      | Except.ok (out, capsF) => Except.ok (row' :: out, capsF)

/-- The Boolean "this output row's outcome is the string S". -/
def hasOutcome (S : String) (r : Row) : Bool :=
  decide (rowGet r "Allocated Slot" = some (PyVal.str S))

namespace Gym

/-- Slot capacities of the base variant (`Gym/allocator.py`). -/
def capacity : Caps :=
  [("SLOT 1 (5:30AM TO 7:00 AM)", 5),
   ("SLOT 2 (7:00AM TO 8:30AM)", 7),
   ("SLOT 3 (4:00PM TO 5:30PM)", 12),
   ("SLOT 4 (5:30PM TO 7:00PM)", 5),
   ("SLOT 5 (7:00PM TO 8:30PM)", 0)]

/-- The preference columns examined by the base variant, in rank order. -/
def prefKeys : List String :=
  ["SLOT PREFERENCE : 1", "SLOT PREFERENCE : 2", "SLOT PREFERENCE : 3"]

/-- The preference loop of the base variant: `slot = row[pref_key]` (KeyError
when the key is absent), then `if slot in capacity and capacity[slot] > 0`. -/
def tryPrefs (caps : Caps) : List String → Row → Except Unit (Option String × Caps)
  | [], _ => Except.ok (Option.none, caps)
  | k :: ks, row =>
    match rowGet row k with
    | Option.none => Except.error ()
    | some PyVal.none => tryPrefs caps ks row
    | some (PyVal.str s) =>
      if capAvail caps s then Except.ok (some s, decCap caps s)
      else tryPrefs caps ks row

/-- One iteration of the base variant's row loop: run the preference loop and
set `row["Allocated Slot"]`. -/
def processRow (caps : Caps) (row : Row) : Except Unit (Row × Caps) :=
  match tryPrefs caps prefKeys row with
  | Except.error e => Except.error e
  | Except.ok (alloc, caps') =>
    Except.ok (rowSet row "Allocated Slot" (PyVal.str (outcomeStr alloc)), caps')

/-- The base variant's `allocate_slots`, abstracted over the parsed input rows:
the produced output records and the final capacity table. -/
def allocate_slots (rows : List Row) : Except Unit (List Row × Caps) :=
  allocRun processRow capacity rows

/-- The base variant's output header:
`fieldnames = reader.fieldnames + ["Allocated Slot"]` (unconditional). -/
def fieldnamesOut (fieldnames : List String) : List String :=
  fieldnames ++ ["Allocated Slot"]

end Gym

namespace Iiitk

/-- Slot capacities of the extended variant (`data/iiitk.py`). -/
def capacity : Caps :=
  [("SLOT 1 (4:30AM TO 5:30 AM)", 20),
   ("SLOT 2 (5:30AM TO 7:00 AM)", 2),
   ("SLOT 3 (7:00AM TO 8:30AM)", 3),
   ("SLOT 4 (2:30PM TO 4:00PM)", 35),
   ("SLOT 5 (4:00PM TO 5:30PM)", 3),
   ("SLOT 6 (5:30PM TO 7:00PM)", 1),
   ("SLOT 7 (7:00PM TO 8:30PM)", 1),
   ("SLOT 8 (8:30PM TO 10:00PM)", 35),
   ("SLOT 9 (10:00PM TO 11:30PM)", 35)]

/-- The preference columns of the extended variant:
`[f"SLOT PREFERENCE : {i}" for i in range(1, 10)]`. -/
def preference_columns : List String :=
  (List.range' 1 9).map (fun i => "SLOT PREFERENCE : " ++ toString i)

/-- The required email-domain suffix of the extended variant. -/
def requiredDomain : String := "@iiitk.ac.in"

/-- `email = row.get("Email", "").strip().lower()`; `.strip()` raises on a
`None` cell. -/
def emailOf (row : Row) : Except Unit String :=
  match pyStrip (pyGetD row "Email" (PyVal.str "")) with
  | Except.error e => Except.error e
  | Except.ok s => Except.ok (pyLowerStr s)

/-- The preference loop of the extended variant:
`slot = row.get(pref, "").strip()` then
`if slot in capacity and capacity[slot] > 0`. -/
def tryPrefs (caps : Caps) : List String → Row → Except Unit (Option String × Caps)
  | [], _ => Except.ok (Option.none, caps)
  | k :: ks, row =>
    match pyStrip (pyGetD row k (PyVal.str "")) with
    | Except.error e => Except.error e
    | Except.ok s =>
      if capAvail caps s then Except.ok (some s, decCap caps s)
      else tryPrefs caps ks row

/-- One iteration of the extended variant's row loop: the strict domain check
first (short-circuiting preference matching), then the preference loop. -/
def processRow (caps : Caps) (row : Row) : Except Unit (Row × Caps) :=
  match emailOf row with
  | Except.error e => Except.error e
  | Except.ok email =>
    if pyEndsWith email requiredDomain then
      match tryPrefs caps preference_columns row with
      | Except.error e => Except.error e
      | Except.ok (alloc, caps') =>
        Except.ok (rowSet row "Allocated Slot" (PyVal.str (outcomeStr alloc)), caps')
    else
      Except.ok (rowSet row "Allocated Slot" (PyVal.str "Invalid email domain"), caps)

/-- The extended variant's `allocate_slots`, abstracted over the parsed input
rows. -/
def allocate_slots (rows : List Row) : Except Unit (List Row × Caps) :=
  allocRun processRow capacity rows

/-- The extended variant's output header: "Allocated Slot" is appended only
when not already present. -/
def fieldnamesOut (fieldnames : List String) : List String :=
  if "Allocated Slot" ∈ fieldnames then fieldnames
  else fieldnames ++ ["Allocated Slot"]

end Iiitk

/-! Basic lemmas about the dict and capacity-table operations. -/

theorem rowGet_rowSet_self (r : Row) (s : String) (v : PyVal) :
    rowGet (rowSet r s v) s = some v := by
  induction r with
  | nil => simp [rowSet, rowGet]
  | cons kv rest ih =>
    obtain ⟨k, w⟩ := kv
    by_cases hk : k = s
    · simp [rowSet, rowGet, hk]
    · simp [rowSet, rowGet, hk, ih]

theorem rowSet_of_not_mem (r : Row) (s : String) (v : PyVal)
    (h : s ∉ r.map Prod.fst) : rowSet r s v = r ++ [(s, v)] := by
  induction r with
  | nil => rfl
  | cons kv rest ih =>
    obtain ⟨k, w⟩ := kv
    simp only [List.map_cons, List.mem_cons] at h
    push_neg at h
    obtain ⟨h1, h2⟩ := h
    have hk : ¬ k = s := fun hh => h1 hh.symm
    simp [rowSet, hk, ih h2]

theorem capAvail_iff (caps : Caps) (s : String) :
    capAvail caps s = true ↔ ∃ c, lookupCap caps s = some c ∧ 0 < c := by
  unfold capAvail
  cases h : lookupCap caps s <;> simp [h]

theorem lookupCap_mem (caps : Caps) (s : String) (c : Int)
    (h : lookupCap caps s = some c) : s ∈ caps.map Prod.fst := by
  induction caps with
  | nil => simp [lookupCap] at h
  | cons kv rest ih =>
    obtain ⟨k, cv⟩ := kv
    by_cases hk : k = s
    · simp [hk]
    · simp [lookupCap, hk] at h
      simp [ih h]

theorem decCap_lookup_self (caps : Caps) (s : String) (c : Int)
    (h : lookupCap caps s = some c) :
    lookupCap (decCap caps s) s = some (c - 1) := by
  induction caps with
  | nil => simp [lookupCap] at h
  | cons kv rest ih =>
    obtain ⟨k, cv⟩ := kv
    by_cases hk : k = s
    · simp [lookupCap, hk] at h
      simp [decCap, lookupCap, hk, h]
    · simp [lookupCap, hk] at h
      simp [decCap, lookupCap, hk, ih h]

theorem decCap_lookup_ne (caps : Caps) (s t : String) (h : t ≠ s) :
    lookupCap (decCap caps s) t = lookupCap caps t := by
  induction caps with
  | nil => simp [decCap]
  | cons kv rest ih =>
    obtain ⟨k, cv⟩ := kv
    by_cases hk : k = s
    · have hst : ¬ s = t := fun hh => h hh.symm
      simp [decCap, lookupCap, hk, hst]
    · by_cases hkt : k = t
      · have hts : ¬ t = s := fun hh => hk (by rw [hkt, hh])
        simp [decCap, lookupCap, hk, hkt, hts]
      · simp [decCap, lookupCap, hk, hkt, ih]

theorem decCap_map_fst (caps : Caps) (s : String) :
    (decCap caps s).map Prod.fst = caps.map Prod.fst := by
  induction caps with
  | nil => rfl
  | cons kv rest ih =>
    obtain ⟨k, cv⟩ := kv
    by_cases hk : k = s
    · simp [decCap, hk]
    · simp [decCap, hk, ih]

theorem decCap_nonneg (caps : Caps) (s : String)
    (hav : capAvail caps s = true) (h : ∀ p ∈ caps, 0 ≤ p.2) :
    ∀ p ∈ decCap caps s, 0 ≤ p.2 := by
  obtain ⟨c, hl, hc⟩ := (capAvail_iff caps s).mp hav
  clear hav
  induction caps with
  | nil => simp [decCap]
  | cons kv rest ih =>
    obtain ⟨k, cv⟩ := kv
    by_cases hk : k = s
    · simp [lookupCap, hk] at hl
      intro p hp
      simp [decCap, hk] at hp
      rcases hp with hp | hp
      · subst hp; simp; omega
      · exact h p (List.mem_cons_of_mem _ hp)
    · simp [lookupCap, hk] at hl
      intro p hp
      simp [decCap, hk] at hp
      rcases hp with hp | hp
      · subst hp; exact h (k, cv) (List.mem_cons_self _ _)
      · exact ih (fun q hq => h q (List.mem_cons_of_mem _ hq)) hl p hp

/-! Characterization of the preference loops: either no preference was
available and the table is untouched, or the result is a slot whose guard held
and whose capacity was decremented. -/

theorem Gym.tryPrefs_alloc_base (caps : Caps) (ks : List String) (row : Row)
    (alloc : Option String) (caps' : Caps)
    (h : Gym.tryPrefs caps ks row = Except.ok (alloc, caps')) :
    (alloc = Option.none ∧ caps' = caps) ∨
    ∃ s, alloc = some s ∧ capAvail caps s = true ∧ caps' = decCap caps s := by
  induction ks with
  | nil =>
    simp [Gym.tryPrefs] at h
    exact Or.inl ⟨h.1.symm, h.2.symm⟩
  | cons k ks ih =>
    cases hg : rowGet row k with
    | none => simp [Gym.tryPrefs, hg] at h
    | some v =>
      cases v with
      | none =>
        simp only [Gym.tryPrefs, hg] at h
        exact ih h
      | str s =>
        by_cases hav : capAvail caps s = true
        · simp only [Gym.tryPrefs, hg, hav, if_true] at h
          simp at h
          exact Or.inr ⟨s, h.1.symm, hav, h.2.symm⟩
        · simp only [Gym.tryPrefs, hg, hav, if_false] at h
          exact ih h

theorem Iiitk.tryPrefs_alloc_ext (caps : Caps) (ks : List String) (row : Row)
    (alloc : Option String) (caps' : Caps)
    (h : Iiitk.tryPrefs caps ks row = Except.ok (alloc, caps')) :
    (alloc = Option.none ∧ caps' = caps) ∨
    ∃ s, alloc = some s ∧ capAvail caps s = true ∧ caps' = decCap caps s := by
  induction ks with
  | nil =>
    simp [Iiitk.tryPrefs] at h
    exact Or.inl ⟨h.1.symm, h.2.symm⟩
  | cons k ks ih =>
    cases hg : pyStrip (pyGetD row k (PyVal.str "")) with
    | error e => simp [Iiitk.tryPrefs, hg] at h
    | ok s =>
      by_cases hav : capAvail caps s = true
      · simp only [Iiitk.tryPrefs, hg, hav, if_true] at h
        simp at h
        exact Or.inr ⟨s, h.1.symm, hav, h.2.symm⟩
      · simp only [Iiitk.tryPrefs, hg, hav, if_false] at h
        exact ih h

/-! Inversion and induction principles for the run loop. -/

theorem allocRun_nil_ok (step : Caps → Row → Except Unit (Row × Caps))
    (caps : Caps) (out : List Row) (capsF : Caps)
    (h : allocRun step caps [] = Except.ok (out, capsF)) :
    out = [] ∧ capsF = caps := by
  simp [allocRun] at h
  exact ⟨h.1, h.2.symm⟩

theorem allocRun_cons_ok (step : Caps → Row → Except Unit (Row × Caps))
    (caps : Caps) (row : Row) (rows : List Row) (out : List Row) (capsF : Caps)
    (h : allocRun step caps (row :: rows) = Except.ok (out, capsF)) :
    ∃ row' caps' tl, step caps row = Except.ok (row', caps') ∧
      allocRun step caps' rows = Except.ok (tl, capsF) ∧ out = row' :: tl := by
  rw [allocRun] at h
  split at h
  · simp at h
  next row' caps' hs =>
    split at h
    · simp at h
    next tl capsF' hr =>
      simp at h
      obtain ⟨h1, h2⟩ := h
      exact ⟨row', caps', tl, hs, by rw [hr, h2], h1.symm⟩

theorem Gym.processRow_ok_base (caps : Caps) (row row' : Row) (caps' : Caps)
    (h : Gym.processRow caps row = Except.ok (row', caps')) :
    ∃ alloc, Gym.tryPrefs caps Gym.prefKeys row = Except.ok (alloc, caps') ∧
      row' = rowSet row "Allocated Slot" (PyVal.str (outcomeStr alloc)) := by
  unfold Gym.processRow at h
  split at h
  · simp at h
  next alloc caps₀ htp =>
    simp at h
    obtain ⟨h1, h2⟩ := h
    exact ⟨alloc, by rw [htp, h2], h1.symm⟩

theorem Iiitk.processRow_ok_ext (caps : Caps) (row row' : Row) (caps' : Caps)
    (h : Iiitk.processRow caps row = Except.ok (row', caps')) :
    ∃ email, Iiitk.emailOf row = Except.ok email ∧
      ((pyEndsWith email Iiitk.requiredDomain = false ∧
        row' = rowSet row "Allocated Slot" (PyVal.str "Invalid email domain") ∧
        caps' = caps) ∨
       (pyEndsWith email Iiitk.requiredDomain = true ∧
        ∃ alloc, Iiitk.tryPrefs caps Iiitk.preference_columns row =
            Except.ok (alloc, caps') ∧
          row' = rowSet row "Allocated Slot" (PyVal.str (outcomeStr alloc)))) := by
  unfold Iiitk.processRow at h
  split at h
  · simp at h
  next email hemail =>
    split at h
    next hdom =>
      split at h
      · simp at h
      next alloc caps₀ htp =>
        simp at h
        obtain ⟨h1, h2⟩ := h
        exact ⟨email, hemail, Or.inr ⟨hdom, alloc, by rw [htp, h2], h1.symm⟩⟩
    next hdom =>
      simp at h
      obtain ⟨h1, h2⟩ := h
      exact ⟨email, hemail,
        Or.inl ⟨by simpa using hdom, h1.symm, h2.symm⟩⟩

/-! Per-step capacity accounting: how one processed row changes the remaining
capacity of a fixed slot label S. -/

theorem Gym.step_cap_base (S : String) (hne : S ≠ "") (hns : S ≠ "No slot allocated")
    (caps : Caps) (row row' : Row) (caps' : Caps) (c : Int)
    (h : Gym.processRow caps row = Except.ok (row', caps'))
    (hl : lookupCap caps S = some c) :
    (hasOutcome S row' = true → 0 < c ∧ lookupCap caps' S = some (c - 1)) ∧
    (hasOutcome S row' = false → lookupCap caps' S = some c) := by
  obtain ⟨alloc, htp, hrow⟩ := Gym.processRow_ok_base caps row row' caps' h
  have hout : hasOutcome S row' = decide (outcomeStr alloc = S) := by
    simp [hasOutcome, hrow, rowGet_rowSet_self]
  rcases Gym.tryPrefs_alloc_base _ _ _ _ _ htp with ⟨hnone, hcc⟩ | ⟨s, hsome, hav, hcc⟩
  · subst hnone
    constructor
    · intro ht
      rw [hout] at ht
      have : outcomeStr Option.none = S := of_decide_eq_true ht
      simp [outcomeStr] at this
      exact absurd this.symm hns
    · intro _
      rw [hcc]; exact hl
  · subst hsome
    by_cases hse : s = ""
    · subst hse
      constructor
      · intro ht
        rw [hout] at ht
        have : outcomeStr (some "") = S := of_decide_eq_true ht
        simp [outcomeStr] at this
        exact absurd this.symm hns
      · intro _
        rw [hcc, decCap_lookup_ne caps "" S hne]; exact hl
    · have houtc : outcomeStr (some s) = s := by simp [outcomeStr, hse]
      by_cases hsS : s = S
      · subst hsS
        obtain ⟨c₀, hl₀, hc₀⟩ := (capAvail_iff _ _).mp hav
        rw [hl] at hl₀
        have hceq : c₀ = c := by injection hl₀.symm
        constructor
        · intro _
          exact ⟨by omega, by rw [hcc]; exact decCap_lookup_self _ _ _ hl⟩
        · intro hf
          rw [hout, houtc] at hf
          simp at hf
      · constructor
        · intro ht
          rw [hout, houtc] at ht
          exact absurd (of_decide_eq_true ht) hsS
        · intro _
          have hSs : S ≠ s := fun hh => hsS hh.symm
          rw [hcc, decCap_lookup_ne caps s S hSs]; exact hl

theorem Iiitk.step_cap_ext (S : String) (hne : S ≠ "")
    (hns : S ≠ "No slot allocated") (hni : S ≠ "Invalid email domain")
    (caps : Caps) (row row' : Row) (caps' : Caps) (c : Int)
    (h : Iiitk.processRow caps row = Except.ok (row', caps'))
    (hl : lookupCap caps S = some c) :
    (hasOutcome S row' = true → 0 < c ∧ lookupCap caps' S = some (c - 1)) ∧
    (hasOutcome S row' = false → lookupCap caps' S = some c) := by
  obtain ⟨email, hemail, hcase⟩ := Iiitk.processRow_ok_ext caps row row' caps' h
  rcases hcase with ⟨hdom, hrow, hcc⟩ | ⟨hdom, alloc, htp, hrow⟩
  · have hout : hasOutcome S row' = decide (("Invalid email domain" : String) = S) := by
      simp [hasOutcome, hrow, rowGet_rowSet_self]
    constructor
    · intro ht
      rw [hout] at ht
      exact absurd (of_decide_eq_true ht).symm hni
    · intro _
      rw [hcc]; exact hl
  · have hout : hasOutcome S row' = decide (outcomeStr alloc = S) := by
      simp [hasOutcome, hrow, rowGet_rowSet_self]
    rcases Iiitk.tryPrefs_alloc_ext _ _ _ _ _ htp with ⟨hnone, hcc⟩ | ⟨s, hsome, hav, hcc⟩
    · subst hnone
      constructor
      · intro ht
        rw [hout] at ht
        have : outcomeStr Option.none = S := of_decide_eq_true ht
        simp [outcomeStr] at this
        exact absurd this.symm hns
      · intro _
        rw [hcc]; exact hl
    · subst hsome
      by_cases hse : s = ""
      · subst hse
        constructor
        · intro ht
          rw [hout] at ht
          have : outcomeStr (some "") = S := of_decide_eq_true ht
          simp [outcomeStr] at this
          exact absurd this.symm hns
        · intro _
          rw [hcc, decCap_lookup_ne caps "" S hne]; exact hl
      · have houtc : outcomeStr (some s) = s := by simp [outcomeStr, hse]
        by_cases hsS : s = S
        · subst hsS
          obtain ⟨c₀, hl₀, hc₀⟩ := (capAvail_iff _ _).mp hav
          rw [hl] at hl₀
          have hceq : c₀ = c := by injection hl₀.symm
          constructor
          · intro _
            exact ⟨by omega, by rw [hcc]; exact decCap_lookup_self _ _ _ hl⟩
          · intro hf
            rw [hout, houtc] at hf
            simp at hf
        · constructor
          · intro ht
            rw [hout, houtc] at ht
            exact absurd (of_decide_eq_true ht) hsS
          · intro _
            have hSs : S ≠ s := fun hh => hsS hh.symm
            rw [hcc, decCap_lookup_ne caps s S hSs]; exact hl

/-- Run-level capacity accounting: over a whole run, the remaining capacity of
label S drops by exactly the number of output records carrying outcome S, and
that count never exceeds the starting capacity. -/
theorem allocRun_cap (step : Caps → Row → Except Unit (Row × Caps)) (S : String)
    (hstep : ∀ caps row row' caps' c, step caps row = Except.ok (row', caps') →
      lookupCap caps S = some c →
      (hasOutcome S row' = true → 0 < c ∧ lookupCap caps' S = some (c - 1)) ∧
      (hasOutcome S row' = false → lookupCap caps' S = some c)) :
    ∀ rows caps out capsF c, allocRun step caps rows = Except.ok (out, capsF) →
      lookupCap caps S = some c → 0 ≤ c →
      lookupCap capsF S = some (c - (out.countP (hasOutcome S) : Int)) ∧
      ((out.countP (hasOutcome S) : Int) ≤ c) := by
  intro rows
  induction rows with
  | nil =>
    intro caps out capsF c h hl hc
    obtain ⟨rfl, rfl⟩ := allocRun_nil_ok step caps out capsF h
    simpa using ⟨hl, hc⟩
  | cons row rows ih =>
    intro caps out capsF c h hl hc
    obtain ⟨row', caps', tl, hs, hr, rfl⟩ := allocRun_cons_ok step caps row rows out capsF h
    have hsc := hstep caps row row' caps' c hs hl
    cases hout : hasOutcome S row' with
    | true =>
      obtain ⟨hpos, hl'⟩ := hsc.1 hout
      obtain ⟨hfin, hle⟩ := ih caps' tl capsF (c - 1) hr hl' (by omega)
      rw [List.countP_cons]
      constructor
      · rw [hfin]
        congr 1
        simp [hout]
        omega
      · simp [hout]
        omega
    | false =>
      have hl' := hsc.2 hout
      obtain ⟨hfin, hle⟩ := ih caps' tl capsF c hr hl' hc
      rw [List.countP_cons]
      simp [hout]
      exact ⟨hfin, hle⟩

theorem forallTwo_mem_right {α β : Type} {R : α → β → Prop} {l₁ : List α}
    {l₂ : List β} (h : List.Forall₂ R l₁ l₂) :
    ∀ b ∈ l₂, ∃ a ∈ l₁, R a b := by
  induction h with
  | nil => simp
  | cons h₁ h₂ ih =>
    intro b hb
    rcases List.mem_cons.mp hb with hb | hb
    · exact ⟨_, List.mem_cons_self _ _, hb ▸ h₁⟩
    · obtain ⟨a, ha, har⟩ := ih b hb
      exact ⟨a, List.mem_cons_of_mem _ ha, har⟩

/-- Per-step shape of the base variant: the emitted record is the input record
with "Allocated Slot" set to an allocated slot label (then a key of the table)
or to "No slot allocated"; the key set of the table is unchanged. -/
theorem Gym.step_shape_base (caps : Caps) (row row' : Row) (caps' : Caps)
    (h : Gym.processRow caps row = Except.ok (row', caps')) :
    ∃ v, row' = rowSet row "Allocated Slot" (PyVal.str v) ∧
      (v ∈ caps.map Prod.fst ∨ v = "No slot allocated") ∧
      caps'.map Prod.fst = caps.map Prod.fst := by
  obtain ⟨alloc, htp, hrow⟩ := Gym.processRow_ok_base caps row row' caps' h
  rcases Gym.tryPrefs_alloc_base _ _ _ _ _ htp with ⟨hnone, hcc⟩ | ⟨s, hsome, hav, hcc⟩
  · subst hnone
    exact ⟨"No slot allocated", hrow, Or.inr rfl, by rw [hcc]⟩
  · subst hsome
    by_cases hse : s = ""
    · subst hse
      refine ⟨"No slot allocated", ?_, Or.inr rfl, by rw [hcc, decCap_map_fst]⟩
      simpa [outcomeStr] using hrow
    · obtain ⟨c, hl, hc⟩ := (capAvail_iff _ _).mp hav
      refine ⟨s, ?_, Or.inl (lookupCap_mem caps s c hl), by rw [hcc, decCap_map_fst]⟩
      simpa [outcomeStr, hse] using hrow

/-- Per-step shape of the extended variant: as in the base variant, with the
additional possible outcome "Invalid email domain". -/
theorem Iiitk.step_shape_ext (caps : Caps) (row row' : Row) (caps' : Caps)
    (h : Iiitk.processRow caps row = Except.ok (row', caps')) :
    ∃ v, row' = rowSet row "Allocated Slot" (PyVal.str v) ∧
      (v ∈ caps.map Prod.fst ∨ v = "No slot allocated" ∨
        v = "Invalid email domain") ∧
      caps'.map Prod.fst = caps.map Prod.fst := by
  obtain ⟨email, hemail, hcase⟩ := Iiitk.processRow_ok_ext caps row row' caps' h
  rcases hcase with ⟨hdom, hrow, hcc⟩ | ⟨hdom, alloc, htp, hrow⟩
  · exact ⟨"Invalid email domain", hrow, Or.inr (Or.inr rfl), by rw [hcc]⟩
  · rcases Iiitk.tryPrefs_alloc_ext _ _ _ _ _ htp with ⟨hnone, hcc⟩ | ⟨s, hsome, hav, hcc⟩
    · subst hnone
      exact ⟨"No slot allocated", hrow, Or.inr (Or.inl rfl), by rw [hcc]⟩
    · subst hsome
      by_cases hse : s = ""
      · subst hse
        refine ⟨"No slot allocated", ?_, Or.inr (Or.inl rfl),
          by rw [hcc, decCap_map_fst]⟩
        simpa [outcomeStr] using hrow
      · obtain ⟨c, hl, hc⟩ := (capAvail_iff _ _).mp hav
        refine ⟨s, ?_, Or.inl (lookupCap_mem caps s c hl),
          by rw [hcc, decCap_map_fst]⟩
        simpa [outcomeStr, hse] using hrow

/-- Run-level shape: each output record is the corresponding input record with
"Allocated Slot" set to a string satisfying the per-variant outcome predicate;
the capacity table's key list is preserved. -/
theorem allocRun_shape (step : Caps → Row → Except Unit (Row × Caps))
    (K : List String) (Q : String → Prop)
    (hstep : ∀ caps row row' caps', caps.map Prod.fst = K →
      step caps row = Except.ok (row', caps') →
      ∃ v, row' = rowSet row "Allocated Slot" (PyVal.str v) ∧ Q v ∧
        caps'.map Prod.fst = K) :
    ∀ rows caps out capsF, caps.map Prod.fst = K →
      allocRun step caps rows = Except.ok (out, capsF) →
      List.Forall₂ (fun row row' => ∃ v,
        row' = rowSet row "Allocated Slot" (PyVal.str v) ∧ Q v) rows out ∧
      capsF.map Prod.fst = K := by
  intro rows
  induction rows with
  | nil =>
    intro caps out capsF hK h
    obtain ⟨rfl, rfl⟩ := allocRun_nil_ok step caps out capsF h
    exact ⟨List.Forall₂.nil, hK⟩
  | cons row rows ih =>
    intro caps out capsF hK h
    obtain ⟨row', caps', tl, hs, hr, rfl⟩ := allocRun_cons_ok step caps row rows out capsF h
    obtain ⟨v, hv, hQ, hK'⟩ := hstep caps row row' caps' hK hs
    obtain ⟨hall, hKF⟩ := ih caps' tl capsF hK' hr
    exact ⟨List.Forall₂.cons ⟨v, hv, hQ⟩ hall, hKF⟩

/-- First-fit characterization of the base variant's preference loop: a
successful allocation comes from the first preference column whose cell names
an available slot; every earlier column's cell was examined and unavailable;
columns after the matching one are never examined (the result only depends on
the row's cells up to and including the matching column). -/
theorem Gym.tryPrefs_first_fit_base (caps : Caps) (ks : List String) (row : Row)
    (S : String) (caps' : Caps)
    (h : Gym.tryPrefs caps ks row = Except.ok (some S, caps')) :
    ∃ ks₁ k ks₂, ks = ks₁ ++ k :: ks₂ ∧
      rowGet row k = some (PyVal.str S) ∧
      capAvail caps S = true ∧
      caps' = decCap caps S ∧
      (∀ k₁ ∈ ks₁, ∃ v, rowGet row k₁ = some v ∧ pyAvail caps v = false) ∧
      (∀ row₂, (∀ k₂ ∈ ks₁ ++ [k], rowGet row₂ k₂ = rowGet row k₂) →
        Gym.tryPrefs caps ks row₂ = Except.ok (some S, caps')) := by
  induction ks with
  | nil => simp [Gym.tryPrefs] at h
  | cons k ks ih =>
    cases hg : rowGet row k with
    | none => simp [Gym.tryPrefs, hg] at h
    | some v =>
      cases v with
      | none =>
        simp only [Gym.tryPrefs, hg] at h
        obtain ⟨ks₁, k', ks₂, hks, hcell, hav, hcc, hearly, hagree⟩ := ih h
        refine ⟨k :: ks₁, k', ks₂, by rw [hks]; rfl, hcell, hav, hcc, ?_, ?_⟩
        · intro k₁ hk₁
          rcases List.mem_cons.mp hk₁ with rfl | hk₁
          · exact ⟨PyVal.none, hg, rfl⟩
          · exact hearly k₁ hk₁
        · intro row₂ hrow₂
          have hk0 : rowGet row₂ k = rowGet row k := hrow₂ k (by simp)
          simp only [Gym.tryPrefs, hk0, hg]
          exact hagree row₂ (fun k₂ hk₂ => hrow₂ k₂ (List.mem_cons_of_mem _ hk₂))
      | str s =>
        by_cases hav : capAvail caps s = true
        · simp only [Gym.tryPrefs, hg, hav, if_true] at h
          simp at h
          obtain ⟨hS, hcc⟩ := h
          subst hS
          refine ⟨[], k, ks, rfl, hg, hav, hcc.symm, by simp, ?_⟩
          intro row₂ hrow₂
          have hk0 : rowGet row₂ k = rowGet row k := hrow₂ k (by simp)
          simp only [Gym.tryPrefs, hk0, hg, hav, if_true]
          rw [hcc]
        · simp only [Gym.tryPrefs, hg, hav, if_false] at h
          obtain ⟨ks₁, k', ks₂, hks, hcell, hav', hcc, hearly, hagree⟩ := ih h
          have hf : capAvail caps s = false := by simpa using hav
          refine ⟨k :: ks₁, k', ks₂, by rw [hks]; rfl, hcell, hav', hcc, ?_, ?_⟩
          · intro k₁ hk₁
            rcases List.mem_cons.mp hk₁ with rfl | hk₁
            · exact ⟨PyVal.str s, hg, by simp [pyAvail, hf]⟩
            · exact hearly k₁ hk₁
          · intro row₂ hrow₂
            have hk0 : rowGet row₂ k = rowGet row k := hrow₂ k (by simp)
            simp only [Gym.tryPrefs, hk0, hg, hav, if_false]
            exact hagree row₂ (fun k₂ hk₂ => hrow₂ k₂ (List.mem_cons_of_mem _ hk₂))

/-- First-fit characterization of the extended variant's preference loop, with
cells read through `row.get(pref, "").strip()`. -/
theorem Iiitk.tryPrefs_first_fit_ext (caps : Caps) (ks : List String) (row : Row)
    (S : String) (caps' : Caps)
    (h : Iiitk.tryPrefs caps ks row = Except.ok (some S, caps')) :
    ∃ ks₁ k ks₂, ks = ks₁ ++ k :: ks₂ ∧
      pyStrip (pyGetD row k (PyVal.str "")) = Except.ok S ∧
      capAvail caps S = true ∧
      caps' = decCap caps S ∧
      (∀ k₁ ∈ ks₁, ∃ s₁, pyStrip (pyGetD row k₁ (PyVal.str "")) = Except.ok s₁ ∧
        capAvail caps s₁ = false) ∧
      (∀ row₂, (∀ k₂ ∈ ks₁ ++ [k], rowGet row₂ k₂ = rowGet row k₂) →
        Iiitk.tryPrefs caps ks row₂ = Except.ok (some S, caps')) := by
  induction ks with
  | nil => simp [Iiitk.tryPrefs] at h
  | cons k ks ih =>
    cases hg : pyStrip (pyGetD row k (PyVal.str "")) with
    | error e => simp [Iiitk.tryPrefs, hg] at h
    | ok s =>
      by_cases hav : capAvail caps s = true
      · simp only [Iiitk.tryPrefs, hg, hav, if_true] at h
        simp at h
        obtain ⟨hS, hcc⟩ := h
        subst hS
        refine ⟨[], k, ks, rfl, hg, hav, hcc.symm, by simp, ?_⟩
        intro row₂ hrow₂
        have hk0 : rowGet row₂ k = rowGet row k := hrow₂ k (by simp)
        have hgd : pyGetD row₂ k (PyVal.str "") = pyGetD row k (PyVal.str "") := by
          rw [pyGetD, pyGetD, hk0]
        simp only [Iiitk.tryPrefs, hgd, hg, hav, if_true]
        rw [hcc]
      · simp only [Iiitk.tryPrefs, hg, hav, if_false] at h
        obtain ⟨ks₁, k', ks₂, hks, hcell, hav', hcc, hearly, hagree⟩ := ih h
        have hf : capAvail caps s = false := by simpa using hav
        refine ⟨k :: ks₁, k', ks₂, by rw [hks]; rfl, hcell, hav', hcc, ?_, ?_⟩
        · intro k₁ hk₁
          rcases List.mem_cons.mp hk₁ with rfl | hk₁
          · exact ⟨s, hg, hf⟩
          · exact hearly k₁ hk₁
        · intro row₂ hrow₂
          have hk0 : rowGet row₂ k = rowGet row k := hrow₂ k (by simp)
          have hgd : pyGetD row₂ k (PyVal.str "") = pyGetD row k (PyVal.str "") := by
            rw [pyGetD, pyGetD, hk0]
          simp only [Iiitk.tryPrefs, hgd, hg, hav, if_false]
          exact hagree row₂ (fun k₂ hk₂ => hrow₂ k₂ (List.mem_cons_of_mem _ hk₂))

/-- Helper shared by the email claims: an applicant whose normalized email
fails the suffix check is annotated "Invalid email domain" and leaves the
capacity table untouched. -/
theorem Iiitk.processRow_invalid (caps : Caps) (row : Row) (e : String)
    (he : Iiitk.emailOf row = Except.ok e)
    (hd : pyEndsWith e Iiitk.requiredDomain = false) :
    Iiitk.processRow caps row =
      Except.ok (rowSet row "Allocated Slot" (PyVal.str "Invalid email domain"),
        caps) := by
  unfold Iiitk.processRow
  rw [he]
  simp [hd]

/-- C1: for every run of either variant, for every slot S of the configured
capacity table, the number of output records whose outcome equals S is at most
S's configured initial capacity. -/
theorem c1_capacity_invariant :
    (∀ rows out capsF S c,
      Gym.allocate_slots rows = Except.ok (out, capsF) →
      (S, c) ∈ Gym.capacity →
      (out.countP (hasOutcome S) : Int) ≤ c) ∧
    (∀ rows out capsF S c,
      Iiitk.allocate_slots rows = Except.ok (out, capsF) →
      (S, c) ∈ Iiitk.capacity →
      (out.countP (hasOutcome S) : Int) ≤ c) := by
  constructor
  · intro rows out capsF S c hrun hmem
    have key : ∀ (S : String) (c : Int), S ≠ "" → S ≠ "No slot allocated" →
        lookupCap Gym.capacity S = some c → 0 ≤ c →
        (out.countP (hasOutcome S) : Int) ≤ c := fun S c h1 h2 h3 h4 =>
      (allocRun_cap Gym.processRow S
        (fun caps row row' caps' c' hs hl =>
          Gym.step_cap_base S h1 h2 caps row row' caps' c' hs hl)
        rows Gym.capacity out capsF c hrun h3 h4).2
    simp [Gym.capacity] at hmem
    rcases hmem with h | h | h | h | h <;> obtain ⟨rfl, rfl⟩ := h <;>
      exact key _ _ (by decide) (by decide) (by decide) (by decide)
  · intro rows out capsF S c hrun hmem
    have key : ∀ (S : String) (c : Int), S ≠ "" → S ≠ "No slot allocated" →
        S ≠ "Invalid email domain" →
        lookupCap Iiitk.capacity S = some c → 0 ≤ c →
        (out.countP (hasOutcome S) : Int) ≤ c := fun S c h1 h2 h3 h4 h5 =>
      (allocRun_cap Iiitk.processRow S
        (fun caps row row' caps' c' hs hl =>
          Iiitk.step_cap_ext S h1 h2 h3 caps row row' caps' c' hs hl)
        rows Iiitk.capacity out capsF c hrun h4 h5).2
    simp [Iiitk.capacity] at hmem
    rcases hmem with h | h | h | h | h | h | h | h | h <;>
      obtain ⟨rfl, rfl⟩ := h <;>
      exact key _ _ (by decide) (by decide) (by decide) (by decide) (by decide)

/-- C3: for every completed run of either variant, there are as many output
records as input records, and each output record's outcome is a configured
slot identifier, "No slot allocated", or (extended variant only)
"Invalid email domain". -/
theorem c3_coverage_invariant :
    (∀ rows out capsF, Gym.allocate_slots rows = Except.ok (out, capsF) →
      out.length = rows.length ∧
      ∀ r ∈ out, ∃ v, rowGet r "Allocated Slot" = some (PyVal.str v) ∧
        (v ∈ Gym.capacity.map Prod.fst ∨ v = "No slot allocated")) ∧
    (∀ rows out capsF, Iiitk.allocate_slots rows = Except.ok (out, capsF) →
      out.length = rows.length ∧
      ∀ r ∈ out, ∃ v, rowGet r "Allocated Slot" = some (PyVal.str v) ∧
        (v ∈ Iiitk.capacity.map Prod.fst ∨ v = "No slot allocated" ∨
          v = "Invalid email domain")) := by
  constructor
  · intro rows out capsF hrun
    have hshape := allocRun_shape Gym.processRow (Gym.capacity.map Prod.fst)
      (fun v => v ∈ Gym.capacity.map Prod.fst ∨ v = "No slot allocated")
      (fun caps row row' caps' hK hs => by
        obtain ⟨v, hv, hQ, hK'⟩ := Gym.step_shape_base caps row row' caps' hs
        exact ⟨v, hv, by rw [hK] at hQ; exact hQ, by rw [hK', hK]⟩)
      rows Gym.capacity out capsF rfl hrun
    refine ⟨hshape.1.length_eq.symm, ?_⟩
    intro r hr
    obtain ⟨row, _, v, hv, hQ⟩ := forallTwo_mem_right hshape.1 r hr
    exact ⟨v, by rw [hv, rowGet_rowSet_self], hQ⟩
  · intro rows out capsF hrun
    have hshape := allocRun_shape Iiitk.processRow (Iiitk.capacity.map Prod.fst)
      (fun v => v ∈ Iiitk.capacity.map Prod.fst ∨ v = "No slot allocated" ∨
        v = "Invalid email domain")
      (fun caps row row' caps' hK hs => by
        obtain ⟨v, hv, hQ, hK'⟩ := Iiitk.step_shape_ext caps row row' caps' hs
        exact ⟨v, hv, by rw [hK] at hQ; exact hQ, by rw [hK', hK]⟩)
      rows Iiitk.capacity out capsF rfl hrun
    refine ⟨hshape.1.length_eq.symm, ?_⟩
    intro r hr
    obtain ⟨row, _, v, hv, hQ⟩ := forallTwo_mem_right hshape.1 r hr
    exact ⟨v, by rw [hv, rowGet_rowSet_self], hQ⟩

/-- C5: in the extended variant, an applicant whose normalized (trimmed,
lowercased) email does not end with the required domain suffix is annotated
"Invalid email domain"; preference matching is skipped and the capacity table
is unchanged by that applicant, whatever capacity was available. -/
theorem c5_invalid_email_short_circuits (caps : Caps) (row : Row) (e : String)
    (he : Iiitk.emailOf row = Except.ok e)
    (hd : pyEndsWith e Iiitk.requiredDomain = false) :
    Iiitk.processRow caps row =
      Except.ok (rowSet row "Allocated Slot" (PyVal.str "Invalid email domain"),
        caps) :=
  Iiitk.processRow_invalid caps row e he hd

/-- C10: in the extended variant, a row with no "Email" field at all, or whose
"Email" value is empty or only whitespace, is annotated "Invalid email domain"
(no hard error, and not "No slot allocated"), with the capacity table
unchanged. -/
theorem c10_blank_email_invalid (caps : Caps) (row : Row)
    (h : rowGet row "Email" = Option.none ∨
      ∃ e, rowGet row "Email" = some (PyVal.str e) ∧ pyTrimStr e = "") :
    Iiitk.processRow caps row =
      Except.ok (rowSet row "Allocated Slot" (PyVal.str "Invalid email domain"),
        caps) := by
  have he : Iiitk.emailOf row = Except.ok "" := by
    rcases h with h | ⟨e, h, htrim⟩
    · unfold Iiitk.emailOf pyGetD
      rw [h]
      rfl
    · unfold Iiitk.emailOf pyGetD
      rw [h]
      show Except.ok (pyLowerStr (pyTrimStr e)) = Except.ok ""
      rw [htrim]
      rfl
  exact Iiitk.processRow_invalid caps row "" he (by decide)

/-- C2: in both variants, a successful preference match assigns the first
preference in rank order whose cell names a capacity-table key with remaining
capacity strictly greater than 0; that slot's capacity is decremented by
exactly 1, every earlier preference was unavailable, and no later preference
is examined (the result does not depend on cells after the matching column). -/
theorem c2_first_fit_assignment :
    (∀ caps row S caps',
      Gym.tryPrefs caps Gym.prefKeys row = Except.ok (some S, caps') →
      ∃ ks₁ k ks₂, Gym.prefKeys = ks₁ ++ k :: ks₂ ∧
        rowGet row k = some (PyVal.str S) ∧
        (∃ c, lookupCap caps S = some c ∧ 0 < c ∧
          caps' = decCap caps S ∧ lookupCap caps' S = some (c - 1)) ∧
        (∀ k₁ ∈ ks₁, ∃ v, rowGet row k₁ = some v ∧ pyAvail caps v = false) ∧
        (∀ row₂, (∀ k₂ ∈ ks₁ ++ [k], rowGet row₂ k₂ = rowGet row k₂) →
          Gym.tryPrefs caps Gym.prefKeys row₂ = Except.ok (some S, caps'))) ∧
    (∀ caps row S caps',
      Iiitk.tryPrefs caps Iiitk.preference_columns row = Except.ok (some S, caps') →
      ∃ ks₁ k ks₂, Iiitk.preference_columns = ks₁ ++ k :: ks₂ ∧
        pyStrip (pyGetD row k (PyVal.str "")) = Except.ok S ∧
        (∃ c, lookupCap caps S = some c ∧ 0 < c ∧
          caps' = decCap caps S ∧ lookupCap caps' S = some (c - 1)) ∧
        (∀ k₁ ∈ ks₁, ∃ s₁,
          pyStrip (pyGetD row k₁ (PyVal.str "")) = Except.ok s₁ ∧
          capAvail caps s₁ = false) ∧
        (∀ row₂, (∀ k₂ ∈ ks₁ ++ [k], rowGet row₂ k₂ = rowGet row k₂) →
          Iiitk.tryPrefs caps Iiitk.preference_columns row₂ =
            Except.ok (some S, caps'))) := by
  constructor
  · intro caps row S caps' h
    obtain ⟨ks₁, k, ks₂, hks, hcell, hav, hcc, hearly, hagree⟩ :=
      Gym.tryPrefs_first_fit_base caps Gym.prefKeys row S caps' h
    obtain ⟨c, hl, hc⟩ := (capAvail_iff _ _).mp hav
    exact ⟨ks₁, k, ks₂, hks, hcell,
      ⟨c, hl, hc, hcc, hcc ▸ decCap_lookup_self caps S c hl⟩, hearly, hagree⟩
  · intro caps row S caps' h
    obtain ⟨ks₁, k, ks₂, hks, hcell, hav, hcc, hearly, hagree⟩ :=
      Iiitk.tryPrefs_first_fit_ext caps Iiitk.preference_columns row S caps' h
    obtain ⟨c, hl, hc⟩ := (capAvail_iff _ _).mp hav
    exact ⟨ks₁, k, ks₂, hks, hcell,
      ⟨c, hl, hc, hcc, hcc ▸ decCap_lookup_self caps S c hl⟩, hearly, hagree⟩

/-- C4 (amended): output record i is input record i with the outcome stored
under "Allocated Slot" — appended as a new last field when the input record
does not already contain that field, otherwise overwritten in place — and
output order equals input order. -/
theorem c4_order_outcome_field :
    (∀ rows out capsF, Gym.allocate_slots rows = Except.ok (out, capsF) →
      out.length = rows.length ∧
      ∀ i, ∀ hi : i < out.length, ∀ hi' : i < rows.length,
        ∃ v, out.get ⟨i, hi⟩ =
            rowSet (rows.get ⟨i, hi'⟩) "Allocated Slot" (PyVal.str v) ∧
          ("Allocated Slot" ∉ (rows.get ⟨i, hi'⟩).map Prod.fst →
            out.get ⟨i, hi⟩ =
              rows.get ⟨i, hi'⟩ ++ [("Allocated Slot", PyVal.str v)])) ∧
    (∀ rows out capsF, Iiitk.allocate_slots rows = Except.ok (out, capsF) →
      out.length = rows.length ∧
      ∀ i, ∀ hi : i < out.length, ∀ hi' : i < rows.length,
        ∃ v, out.get ⟨i, hi⟩ =
            rowSet (rows.get ⟨i, hi'⟩) "Allocated Slot" (PyVal.str v) ∧
          ("Allocated Slot" ∉ (rows.get ⟨i, hi'⟩).map Prod.fst →
            out.get ⟨i, hi⟩ =
              rows.get ⟨i, hi'⟩ ++ [("Allocated Slot", PyVal.str v)])) := by
  constructor
  · intro rows out capsF hrun
    have hshape := allocRun_shape Gym.processRow (Gym.capacity.map Prod.fst)
      (fun _ => True)
      (fun caps row row' caps' hK hs => by
        obtain ⟨v, hv, _, hK'⟩ := Gym.step_shape_base caps row row' caps' hs
        exact ⟨v, hv, trivial, by rw [hK', hK]⟩)
      rows Gym.capacity out capsF rfl hrun
    obtain ⟨hlen, hget⟩ := List.forall₂_iff_get.mp hshape.1
    refine ⟨hlen.symm, ?_⟩
    intro i hi hi'
    obtain ⟨v, hv, -⟩ := hget i hi' hi
    exact ⟨v, hv, fun hnm => by
      rw [hv, rowSet_of_not_mem (rows.get ⟨i, hi'⟩) _ _ hnm]⟩
  · intro rows out capsF hrun
    have hshape := allocRun_shape Iiitk.processRow (Iiitk.capacity.map Prod.fst)
      (fun _ => True)
      (fun caps row row' caps' hK hs => by
        obtain ⟨v, hv, _, hK'⟩ := Iiitk.step_shape_ext caps row row' caps' hs
        exact ⟨v, hv, trivial, by rw [hK', hK]⟩)
      rows Iiitk.capacity out capsF rfl hrun
    obtain ⟨hlen, hget⟩ := List.forall₂_iff_get.mp hshape.1
    refine ⟨hlen.symm, ?_⟩
    intro i hi hi'
    obtain ⟨v, hv, -⟩ := hget i hi' hi
    exact ⟨v, hv, fun hnm => by
      rw [hv, rowSet_of_not_mem (rows.get ⟨i, hi'⟩) _ _ hnm]⟩

/-- C4 counterexample: on an input record that already contains an
"Allocated Slot" field, the output record is NOT the input record with the
outcome appended — the existing field is overwritten in place (and its
original value "OLD" is lost), so the claim as stated fails on this run. -/
theorem c4_counterexample :
    Iiitk.allocate_slots
        [[("Email", PyVal.str "a@iiitk.ac.in"),
          ("Allocated Slot", PyVal.str "OLD")]] =
      Except.ok
        ([[("Email", PyVal.str "a@iiitk.ac.in"),
           ("Allocated Slot", PyVal.str "No slot allocated")]],
         Iiitk.capacity) ∧
    [("Email", PyVal.str "a@iiitk.ac.in"),
     ("Allocated Slot", PyVal.str "No slot allocated")] ≠
      [("Email", PyVal.str "a@iiitk.ac.in"),
       ("Allocated Slot", PyVal.str "OLD")] ++
        [("Allocated Slot", PyVal.str "No slot allocated")] := by
  exact ⟨by decide, by decide⟩

/-- C8 counterexample: in the base variant, a row whose dict lacks the
expected preference keys makes the run raise (`row[pref_key]` is a KeyError),
aborting instead of continuing with "No slot allocated". -/
theorem c8_counterexample :
    Gym.allocate_slots [[("Name", PyVal.str "x")]] = Except.error () := by
  decide

/-- C9 counterexample: the base variant appends "Allocated Slot"
unconditionally, so a header already containing that column gains a second
one, refuting the claim for "either variant". -/
theorem c9_counterexample :
    (Gym.fieldnamesOut ["Name", "Allocated Slot"]).count "Allocated Slot" = 2 := by
  decide

/-- C9 (amended): the extended variant's header handling is idempotent — when
"Allocated Slot" is already present the header is unchanged, so a header with
exactly one such column keeps exactly one; the base variant appends a
duplicate (see the counterexample). -/
theorem c9_header_idempotent_ext :
    (∀ fieldnames : List String, "Allocated Slot" ∈ fieldnames →
      Iiitk.fieldnamesOut fieldnames = fieldnames) ∧
    (∀ fieldnames : List String, fieldnames.count "Allocated Slot" = 1 →
      (Iiitk.fieldnamesOut fieldnames).count "Allocated Slot" = 1) := by
  constructor
  · intro fn h
    simp [Iiitk.fieldnamesOut, h]
  · intro fn h
    have hm : "Allocated Slot" ∈ fn := by
      have : 0 < fn.count "Allocated Slot" := by omega
      exact List.count_pos_iff.mp this
    simp [Iiitk.fieldnamesOut, hm, h]

theorem rowGet_mem_snd (row : Row) (k : String) (v : PyVal)
    (h : rowGet row k = some v) : v ∈ row.map Prod.snd := by
  induction row with
  | nil => simp [rowGet] at h
  | cons kv rest ih =>
    obtain ⟨k₀, v₀⟩ := kv
    by_cases hk : k₀ = k
    · simp [rowGet, hk] at h
      simp [h]
    · simp [rowGet, hk] at h
      simp [ih h]

theorem Iiitk.cell_ok (row : Row) (hwf : ∀ p ∈ row, ∃ s, p.2 = PyVal.str s)
    (k : String) : ∃ s, pyStrip (pyGetD row k (PyVal.str "")) = Except.ok s := by
  cases hg : rowGet row k with
  | none => exact ⟨pyTrimStr "", by rw [pyGetD, hg]; rfl⟩
  | some v =>
    have hv := rowGet_mem_snd row k v hg
    obtain ⟨p, hp, hps⟩ := List.mem_map.mp hv
    obtain ⟨s, hs⟩ := hwf p hp
    refine ⟨pyTrimStr s, ?_⟩
    rw [pyGetD, hg]
    rw [hs] at hps
    rw [← hps]
    rfl

theorem Iiitk.tryPrefs_total (caps : Caps) (ks : List String) (row : Row)
    (hcell : ∀ k, ∃ s, pyStrip (pyGetD row k (PyVal.str "")) = Except.ok s) :
    ∃ res, Iiitk.tryPrefs caps ks row = Except.ok res := by
  induction ks with
  | nil => exact ⟨(Option.none, caps), rfl⟩
  | cons k ks ih =>
    obtain ⟨s, hs⟩ := hcell k
    by_cases hav : capAvail caps s = true
    · exact ⟨(some s, decCap caps s),
        by simp only [Iiitk.tryPrefs, hs, hav, if_true]⟩
    · obtain ⟨res, hres⟩ := ih
      exact ⟨res, by simp only [Iiitk.tryPrefs, hs, hav, if_false]; exact hres⟩

theorem decCap_lookup_le (caps : Caps) (s t : String) (c : Int)
    (h : lookupCap caps t = some c) :
    ∃ c', lookupCap (decCap caps s) t = some c' ∧ c' ≤ c ∧ c - 1 ≤ c' := by
  by_cases hts : t = s
  · subst hts
    exact ⟨c - 1, decCap_lookup_self caps t c h, by omega, by omega⟩
  · exact ⟨c, by rw [decCap_lookup_ne caps s t hts]; exact h, le_refl c, by omega⟩

theorem Gym.step_table_base (caps : Caps) (row row' : Row) (caps' : Caps)
    (h : Gym.processRow caps row = Except.ok (row', caps')) :
    caps' = caps ∨ ∃ s, capAvail caps s = true ∧ caps' = decCap caps s := by
  obtain ⟨alloc, htp, _⟩ := Gym.processRow_ok_base caps row row' caps' h
  rcases Gym.tryPrefs_alloc_base _ _ _ _ _ htp with ⟨_, hcc⟩ | ⟨s, _, hav, hcc⟩
  · exact Or.inl hcc
  · exact Or.inr ⟨s, hav, hcc⟩

theorem Iiitk.step_table_ext (caps : Caps) (row row' : Row) (caps' : Caps)
    (h : Iiitk.processRow caps row = Except.ok (row', caps')) :
    caps' = caps ∨ ∃ s, capAvail caps s = true ∧ caps' = decCap caps s := by
  obtain ⟨email, _, hcase⟩ := Iiitk.processRow_ok_ext caps row row' caps' h
  rcases hcase with ⟨_, _, hcc⟩ | ⟨_, alloc, htp, _⟩
  · exact Or.inl hcc
  · rcases Iiitk.tryPrefs_alloc_ext _ _ _ _ _ htp with ⟨_, hcc⟩ | ⟨s, _, hav, hcc⟩
    · exact Or.inl hcc
    · exact Or.inr ⟨s, hav, hcc⟩

/-- Run-level table discipline: capacities never increase, and a table that
starts nonnegative stays nonnegative. -/
theorem allocRun_mono (step : Caps → Row → Except Unit (Row × Caps))
    (hstep : ∀ caps row row' caps',
      step caps row = Except.ok (row', caps') →
      caps' = caps ∨ ∃ s, capAvail caps s = true ∧ caps' = decCap caps s) :
    ∀ rows caps out capsF, allocRun step caps rows = Except.ok (out, capsF) →
      (∀ S c, lookupCap caps S = some c →
        ∃ c', lookupCap capsF S = some c' ∧ c' ≤ c) ∧
      ((∀ p ∈ caps, 0 ≤ p.2) → ∀ p ∈ capsF, 0 ≤ p.2) := by
  intro rows
  induction rows with
  | nil =>
    intro caps out capsF h
    obtain ⟨rfl, rfl⟩ := allocRun_nil_ok step caps out capsF h
    exact ⟨fun S c hl => ⟨c, hl, le_refl c⟩, fun hnn => hnn⟩
  | cons row rows ih =>
    intro caps out capsF h
    obtain ⟨row', caps', tl, hs, hr, rfl⟩ := allocRun_cons_ok step caps row rows out capsF h
    have hih := ih caps' tl capsF hr
    rcases hstep caps row row' caps' hs with rfl | ⟨s, hav, rfl⟩
    · exact hih
    · constructor
      · intro S c hl
        obtain ⟨c₁, hl₁, hle₁, _⟩ := decCap_lookup_le caps s S c hl
        obtain ⟨c', hl', hle'⟩ := hih.1 S c₁ hl₁
        exact ⟨c', hl', le_trans hle' hle₁⟩
      · intro hnn
        exact hih.2 (decCap_nonneg caps s hav hnn)

/-- C8 (amended): the extended variant treats missing fields as absent
preferences — a row whose cells are all strings is processed without error,
and with a valid email and all preference columns missing the applicant falls
through to "No slot allocated" with the table unchanged. (The base variant,
by contrast, raises KeyError on a missing preference column — see the
counterexample.) -/
theorem c8_missing_pref_tolerated_ext :
    (∀ caps row, (∀ p ∈ row, ∃ s, p.2 = PyVal.str s) →
      ∃ res, Iiitk.processRow caps row = Except.ok res) ∧
    (∀ caps row e, Iiitk.emailOf row = Except.ok e →
      pyEndsWith e Iiitk.requiredDomain = true →
      (∀ k ∈ Iiitk.preference_columns, rowGet row k = Option.none) →
      capAvail caps "" = false →
      Iiitk.processRow caps row =
        Except.ok (rowSet row "Allocated Slot" (PyVal.str "No slot allocated"),
          caps)) := by
  constructor
  · intro caps row hwf
    obtain ⟨es, hes⟩ := Iiitk.cell_ok row hwf "Email"
    have hemail : Iiitk.emailOf row = Except.ok (pyLowerStr es) := by
      unfold Iiitk.emailOf
      rw [hes]
    by_cases hd : pyEndsWith (pyLowerStr es) Iiitk.requiredDomain = true
    · obtain ⟨⟨alloc, caps'⟩, htp⟩ :=
        Iiitk.tryPrefs_total caps Iiitk.preference_columns row
          (Iiitk.cell_ok row hwf)
      refine ⟨(rowSet row "Allocated Slot" (PyVal.str (outcomeStr alloc)), caps'), ?_⟩
      unfold Iiitk.processRow
      rw [hemail]
      simp [hd, htp]
    · have hd' : pyEndsWith (pyLowerStr es) Iiitk.requiredDomain = false := by
        simpa using hd
      exact ⟨_, Iiitk.processRow_invalid caps row _ hemail hd'⟩
  · intro caps row e hemail hdom hmiss hempty
    have htp : ∀ ks : List String, (∀ k ∈ ks, rowGet row k = Option.none) →
        Iiitk.tryPrefs caps ks row = Except.ok (Option.none, caps) := by
      intro ks
      induction ks with
      | nil => intro _; rfl
      | cons k ks ih =>
        intro hk
        have hgk := hk k (List.mem_cons_self _ _)
        have hcellk : pyStrip (pyGetD row k (PyVal.str "")) = Except.ok "" := by
          rw [pyGetD, hgk]
          rfl
        simp only [Iiitk.tryPrefs, hcellk, hempty, if_false]
        exact ih (fun k₂ hk₂ => hk k₂ (List.mem_cons_of_mem _ hk₂))
    unfold Iiitk.processRow
    rw [hemail]
    simp [hdom, htp Iiitk.preference_columns hmiss, outcomeStr]

/-- C6: first-fit priority — if slot S has remaining capacity exactly 1 when
applicant A is processed and A's preference matching selects S, then A's
output record carries outcome S and no later applicant in the same run
receives S (in particular any later applicant B who also listed S does not
get it). Stated for both variants; in the extended variant A's email passes
the domain check. -/
theorem c6_first_fit_priority :
    (∀ caps S rA rest capsA out capsF,
      S ≠ "" → S ≠ "No slot allocated" →
      lookupCap caps S = some 1 →
      Gym.tryPrefs caps Gym.prefKeys rA = Except.ok (some S, capsA) →
      allocRun Gym.processRow caps (rA :: rest) = Except.ok (out, capsF) →
      ∃ outA tl, out = outA :: tl ∧ hasOutcome S outA = true ∧
        ∀ r ∈ tl, hasOutcome S r = false) ∧
    (∀ caps S rA rest capsA out capsF e,
      S ≠ "" → S ≠ "No slot allocated" → S ≠ "Invalid email domain" →
      lookupCap caps S = some 1 →
      Iiitk.emailOf rA = Except.ok e →
      pyEndsWith e Iiitk.requiredDomain = true →
      Iiitk.tryPrefs caps Iiitk.preference_columns rA = Except.ok (some S, capsA) →
      allocRun Iiitk.processRow caps (rA :: rest) = Except.ok (out, capsF) →
      ∃ outA tl, out = outA :: tl ∧ hasOutcome S outA = true ∧
        ∀ r ∈ tl, hasOutcome S r = false) := by
  constructor
  · intro caps S rA rest capsA out capsF hne hns hl hA hrun
    obtain ⟨rowA', capsA', tl, hs, hr, rfl⟩ :=
      allocRun_cons_ok Gym.processRow caps rA rest out capsF hrun
    obtain ⟨alloc, htp, hrow⟩ := Gym.processRow_ok_base caps rA rowA' capsA' hs
    rw [hA] at htp
    have halloc : alloc = some S ∧ capsA' = capsA := by
      have := htp
      simp at this
      exact ⟨this.1.symm, this.2.symm⟩
    obtain ⟨rfl, rfl⟩ := halloc
    have houtA : hasOutcome S rowA' = true := by
      simp [hasOutcome, hrow, rowGet_rowSet_self, outcomeStr, hne]
    have hcap := (allocRun_cap Gym.processRow S
      (fun caps₂ row row' caps₂' c' hs₂ hl₂ =>
        Gym.step_cap_base S hne hns caps₂ row row' caps₂' c' hs₂ hl₂)
      (rA :: rest) caps (rowA' :: tl) capsF 1 hrun hl (by omega)).2
    rw [List.countP_cons_of_pos _ _ houtA] at hcap
    have hzero : tl.countP (hasOutcome S) = 0 := by omega
    refine ⟨rowA', tl, rfl, houtA, ?_⟩
    intro r hr
    have := List.countP_eq_zero.mp hzero r hr
    simpa using this
  · intro caps S rA rest capsA out capsF e hne hns hni hl he hd hA hrun
    obtain ⟨rowA', capsA', tl, hs, hr, rfl⟩ :=
      allocRun_cons_ok Iiitk.processRow caps rA rest out capsF hrun
    obtain ⟨email, hemail, hcase⟩ := Iiitk.processRow_ok_ext caps rA rowA' capsA' hs
    rw [he] at hemail
    have hee : email = e := by
      have := hemail
      simp at this
      exact this.symm
    subst hee
    rcases hcase with ⟨hdom, _, _⟩ | ⟨_, alloc, htp, hrow⟩
    · rw [hd] at hdom
      simp at hdom
    · rw [hA] at htp
      have halloc : alloc = some S ∧ capsA' = capsA := by
        have := htp
        simp at this
        exact ⟨this.1.symm, this.2.symm⟩
      obtain ⟨rfl, rfl⟩ := halloc
      have houtA : hasOutcome S rowA' = true := by
        simp [hasOutcome, hrow, rowGet_rowSet_self, outcomeStr, hne]
      have hcap := (allocRun_cap Iiitk.processRow S
        (fun caps₂ row row' caps₂' c' hs₂ hl₂ =>
          Iiitk.step_cap_ext S hne hns hni caps₂ row row' caps₂' c' hs₂ hl₂)
        (rA :: rest) caps (rowA' :: tl) capsF 1 hrun hl (by omega)).2
      rw [List.countP_cons_of_pos _ _ houtA] at hcap
      have hzero : tl.countP (hasOutcome S) = 0 := by omega
      refine ⟨rowA', tl, rfl, houtA, ?_⟩
      intro r hr
      have := List.countP_eq_zero.mp hzero r hr
      simpa using this

/-- C7: capacity-table discipline — a processed row either leaves the table
unchanged or, exactly when it carries an allocated outcome s, decrements s's
entry by exactly 1 (guarded by the positivity check) and touches no other
entry; over a whole run no entry ever increases, a nonnegative table stays
nonnegative, and a slot whose remaining capacity is 0 is never assigned. -/
theorem c7_capacity_mutation_discipline :
    (∀ caps row row' caps', ("" : String) ∉ caps.map Prod.fst →
      Gym.processRow caps row = Except.ok (row', caps') →
      caps' = caps ∨ ∃ s c, rowGet row' "Allocated Slot" = some (PyVal.str s) ∧
        lookupCap caps s = some c ∧ 0 < c ∧ caps' = decCap caps s ∧
        lookupCap caps' s = some (c - 1) ∧
        ∀ t, t ≠ s → lookupCap caps' t = lookupCap caps t) ∧
    (∀ caps row row' caps', ("" : String) ∉ caps.map Prod.fst →
      Iiitk.processRow caps row = Except.ok (row', caps') →
      caps' = caps ∨ ∃ s c, rowGet row' "Allocated Slot" = some (PyVal.str s) ∧
        lookupCap caps s = some c ∧ 0 < c ∧ caps' = decCap caps s ∧
        lookupCap caps' s = some (c - 1) ∧
        ∀ t, t ≠ s → lookupCap caps' t = lookupCap caps t) ∧
    (∀ rows caps out capsF,
      allocRun Gym.processRow caps rows = Except.ok (out, capsF) →
      (∀ S c, lookupCap caps S = some c →
        ∃ c', lookupCap capsF S = some c' ∧ c' ≤ c) ∧
      ((∀ p ∈ caps, 0 ≤ p.2) → ∀ p ∈ capsF, 0 ≤ p.2)) ∧
    (∀ rows caps out capsF,
      allocRun Iiitk.processRow caps rows = Except.ok (out, capsF) →
      (∀ S c, lookupCap caps S = some c →
        ∃ c', lookupCap capsF S = some c' ∧ c' ≤ c) ∧
      ((∀ p ∈ caps, 0 ≤ p.2) → ∀ p ∈ capsF, 0 ≤ p.2)) ∧
    (∀ rows caps out capsF S, S ≠ "" → S ≠ "No slot allocated" →
      lookupCap caps S = some 0 →
      allocRun Gym.processRow caps rows = Except.ok (out, capsF) →
      ∀ r ∈ out, hasOutcome S r = false) ∧
    (∀ rows caps out capsF S, S ≠ "" → S ≠ "No slot allocated" →
      S ≠ "Invalid email domain" → lookupCap caps S = some 0 →
      allocRun Iiitk.processRow caps rows = Except.ok (out, capsF) →
      ∀ r ∈ out, hasOutcome S r = false) := by
  have hstepA : ∀ caps (row row' : Row) caps',
      ("" : String) ∉ caps.map Prod.fst →
      ∀ alloc, row' = rowSet row "Allocated Slot" (PyVal.str (outcomeStr alloc)) →
      (alloc = Option.none ∧ caps' = caps) ∨
        (∃ s, alloc = some s ∧ capAvail caps s = true ∧ caps' = decCap caps s) →
      caps' = caps ∨ ∃ s c, rowGet row' "Allocated Slot" = some (PyVal.str s) ∧
        lookupCap caps s = some c ∧ 0 < c ∧ caps' = decCap caps s ∧
        lookupCap caps' s = some (c - 1) ∧
        ∀ t, t ≠ s → lookupCap caps' t = lookupCap caps t := by
    intro caps row row' caps' hnk alloc hrow hcases
    rcases hcases with ⟨rfl, hcc⟩ | ⟨s, rfl, hav, hcc⟩
    · exact Or.inl hcc
    · obtain ⟨c, hl, hc⟩ := (capAvail_iff _ _).mp hav
      have hsne : s ≠ "" := by
        intro hse
        exact hnk (hse ▸ lookupCap_mem caps s c hl)
      refine Or.inr ⟨s, c, ?_, hl, hc, hcc, ?_, ?_⟩
      · simp [hrow, rowGet_rowSet_self, outcomeStr, hsne]
      · rw [hcc]
        exact decCap_lookup_self caps s c hl
      · intro t ht
        rw [hcc]
        exact decCap_lookup_ne caps s t ht
  refine ⟨?_, ?_, ?_, ?_, ?_, ?_⟩
  · intro caps row row' caps' hnk h
    obtain ⟨alloc, htp, hrow⟩ := Gym.processRow_ok_base caps row row' caps' h
    exact hstepA caps row row' caps' hnk alloc hrow
      (Gym.tryPrefs_alloc_base _ _ _ _ _ htp)
  · intro caps row row' caps' hnk h
    obtain ⟨email, _, hcase⟩ := Iiitk.processRow_ok_ext caps row row' caps' h
    rcases hcase with ⟨_, _, hcc⟩ | ⟨_, alloc, htp, hrow⟩
    · exact Or.inl hcc
    · exact hstepA caps row row' caps' hnk alloc hrow
        (Iiitk.tryPrefs_alloc_ext _ _ _ _ _ htp)
  · exact fun rows caps out capsF h =>
      allocRun_mono Gym.processRow Gym.step_table_base rows caps out capsF h
  · exact fun rows caps out capsF h =>
      allocRun_mono Iiitk.processRow Iiitk.step_table_ext rows caps out capsF h
  · intro rows caps out capsF S hne hns hl hrun r hr
    have hcap := (allocRun_cap Gym.processRow S
      (fun caps₂ row row' caps₂' c' hs₂ hl₂ =>
        Gym.step_cap_base S hne hns caps₂ row row' caps₂' c' hs₂ hl₂)
      rows caps out capsF 0 hrun hl (by omega)).2
    have hzero : out.countP (hasOutcome S) = 0 := by omega
    simpa using List.countP_eq_zero.mp hzero r hr
  · intro rows caps out capsF S hne hns hni hl hrun r hr
    have hcap := (allocRun_cap Iiitk.processRow S
      (fun caps₂ row row' caps₂' c' hs₂ hl₂ =>
        Iiitk.step_cap_ext S hne hns hni caps₂ row row' caps₂' c' hs₂ hl₂)
      rows caps out capsF 0 hrun hl (by omega)).2
    have hzero : out.countP (hasOutcome S) = 0 := by omega
    simpa using List.countP_eq_zero.mp hzero r hr

theorem c1_capacity_invariant_witness :
    (([[("SLOT PREFERENCE : 1", PyVal.str "SLOT 1 (5:30AM TO 7:00 AM)"),
        ("SLOT PREFERENCE : 2", PyVal.str ""),
        ("SLOT PREFERENCE : 3", PyVal.str ""),
        ("Allocated Slot", PyVal.str "SLOT 1 (5:30AM TO 7:00 AM)")]].countP
        (hasOutcome "SLOT 1 (5:30AM TO 7:00 AM)") : Int) ≤ 5) ∧
    (([[("Email", PyVal.str "a@other.com"),
        ("Allocated Slot", PyVal.str "Invalid email domain")]].countP
        (hasOutcome "SLOT 6 (5:30PM TO 7:00PM)") : Int) ≤ 1) :=
  ⟨c1_capacity_invariant.1
      [[("SLOT PREFERENCE : 1", PyVal.str "SLOT 1 (5:30AM TO 7:00 AM)"),
        ("SLOT PREFERENCE : 2", PyVal.str ""),
        ("SLOT PREFERENCE : 3", PyVal.str "")]]
      _ (decCap Gym.capacity "SLOT 1 (5:30AM TO 7:00 AM)")
      "SLOT 1 (5:30AM TO 7:00 AM)" 5 (by decide) (by decide),
   c1_capacity_invariant.2 [[("Email", PyVal.str "a@other.com")]]
      _ Iiitk.capacity "SLOT 6 (5:30PM TO 7:00PM)" 1 (by decide) (by decide)⟩

theorem c2_first_fit_assignment_witness :
    (∃ ks₁ k ks₂, Gym.prefKeys = ks₁ ++ k :: ks₂ ∧
      rowGet [("SLOT PREFERENCE : 1", PyVal.str "SLOT 1 (5:30AM TO 7:00 AM)"),
              ("SLOT PREFERENCE : 2", PyVal.str ""),
              ("SLOT PREFERENCE : 3", PyVal.str "")] k =
        some (PyVal.str "SLOT 1 (5:30AM TO 7:00 AM)") ∧
      (∃ c, lookupCap Gym.capacity "SLOT 1 (5:30AM TO 7:00 AM)" = some c ∧
        0 < c ∧
        decCap Gym.capacity "SLOT 1 (5:30AM TO 7:00 AM)" =
          decCap Gym.capacity "SLOT 1 (5:30AM TO 7:00 AM)" ∧
        lookupCap (decCap Gym.capacity "SLOT 1 (5:30AM TO 7:00 AM)")
          "SLOT 1 (5:30AM TO 7:00 AM)" = some (c - 1)) ∧
      (∀ k₁ ∈ ks₁, ∃ v,
        rowGet [("SLOT PREFERENCE : 1", PyVal.str "SLOT 1 (5:30AM TO 7:00 AM)"),
                ("SLOT PREFERENCE : 2", PyVal.str ""),
                ("SLOT PREFERENCE : 3", PyVal.str "")] k₁ = some v ∧
          pyAvail Gym.capacity v = false) ∧
      (∀ row₂, (∀ k₂ ∈ ks₁ ++ [k], rowGet row₂ k₂ =
          rowGet [("SLOT PREFERENCE : 1", PyVal.str "SLOT 1 (5:30AM TO 7:00 AM)"),
                  ("SLOT PREFERENCE : 2", PyVal.str ""),
                  ("SLOT PREFERENCE : 3", PyVal.str "")] k₂) →
        Gym.tryPrefs Gym.capacity Gym.prefKeys row₂ =
          Except.ok (some "SLOT 1 (5:30AM TO 7:00 AM)",
            decCap Gym.capacity "SLOT 1 (5:30AM TO 7:00 AM)"))) ∧
    (∃ ks₁ k ks₂, Iiitk.preference_columns = ks₁ ++ k :: ks₂ ∧
      pyStrip (pyGetD [("Email", PyVal.str "a@iiitk.ac.in"),
          ("SLOT PREFERENCE : 1", PyVal.str " SLOT 7 (7:00PM TO 8:30PM) ")] k
          (PyVal.str "")) =
        Except.ok "SLOT 7 (7:00PM TO 8:30PM)" ∧
      (∃ c, lookupCap Iiitk.capacity "SLOT 7 (7:00PM TO 8:30PM)" = some c ∧
        0 < c ∧
        decCap Iiitk.capacity "SLOT 7 (7:00PM TO 8:30PM)" =
          decCap Iiitk.capacity "SLOT 7 (7:00PM TO 8:30PM)" ∧
        lookupCap (decCap Iiitk.capacity "SLOT 7 (7:00PM TO 8:30PM)")
          "SLOT 7 (7:00PM TO 8:30PM)" = some (c - 1)) ∧
      (∀ k₁ ∈ ks₁, ∃ s₁,
        pyStrip (pyGetD [("Email", PyVal.str "a@iiitk.ac.in"),
            ("SLOT PREFERENCE : 1", PyVal.str " SLOT 7 (7:00PM TO 8:30PM) ")] k₁
            (PyVal.str "")) = Except.ok s₁ ∧
          capAvail Iiitk.capacity s₁ = false) ∧
      (∀ row₂, (∀ k₂ ∈ ks₁ ++ [k], rowGet row₂ k₂ =
          rowGet [("Email", PyVal.str "a@iiitk.ac.in"),
              ("SLOT PREFERENCE : 1", PyVal.str " SLOT 7 (7:00PM TO 8:30PM) ")] k₂) →
        Iiitk.tryPrefs Iiitk.capacity Iiitk.preference_columns row₂ =
          Except.ok (some "SLOT 7 (7:00PM TO 8:30PM)",
            decCap Iiitk.capacity "SLOT 7 (7:00PM TO 8:30PM)"))) :=
  ⟨c2_first_fit_assignment.1 Gym.capacity
      [("SLOT PREFERENCE : 1", PyVal.str "SLOT 1 (5:30AM TO 7:00 AM)"),
       ("SLOT PREFERENCE : 2", PyVal.str ""),
       ("SLOT PREFERENCE : 3", PyVal.str "")]
      "SLOT 1 (5:30AM TO 7:00 AM)"
      (decCap Gym.capacity "SLOT 1 (5:30AM TO 7:00 AM)") (by decide),
   c2_first_fit_assignment.2 Iiitk.capacity
      [("Email", PyVal.str "a@iiitk.ac.in"),
       ("SLOT PREFERENCE : 1", PyVal.str " SLOT 7 (7:00PM TO 8:30PM) ")]
      "SLOT 7 (7:00PM TO 8:30PM)"
      (decCap Iiitk.capacity "SLOT 7 (7:00PM TO 8:30PM)") (by decide)⟩

theorem c3_coverage_invariant_witness :
    (([[("SLOT PREFERENCE : 1", PyVal.str "SLOT 1 (5:30AM TO 7:00 AM)"),
        ("SLOT PREFERENCE : 2", PyVal.str ""),
        ("SLOT PREFERENCE : 3", PyVal.str ""),
        ("Allocated Slot", PyVal.str "SLOT 1 (5:30AM TO 7:00 AM)")]] :
          List Row).length =
        ([[("SLOT PREFERENCE : 1", PyVal.str "SLOT 1 (5:30AM TO 7:00 AM)"),
           ("SLOT PREFERENCE : 2", PyVal.str ""),
           ("SLOT PREFERENCE : 3", PyVal.str "")]] : List Row).length ∧
      ∀ r ∈ ([[("SLOT PREFERENCE : 1", PyVal.str "SLOT 1 (5:30AM TO 7:00 AM)"),
               ("SLOT PREFERENCE : 2", PyVal.str ""),
               ("SLOT PREFERENCE : 3", PyVal.str ""),
               ("Allocated Slot", PyVal.str "SLOT 1 (5:30AM TO 7:00 AM)")]] :
                 List Row),
        ∃ v, rowGet r "Allocated Slot" = some (PyVal.str v) ∧
          (v ∈ Gym.capacity.map Prod.fst ∨ v = "No slot allocated")) ∧
    (([[("Email", PyVal.str "a@other.com"),
        ("Allocated Slot", PyVal.str "Invalid email domain")]] : List Row).length =
        ([[("Email", PyVal.str "a@other.com")]] : List Row).length ∧
      ∀ r ∈ ([[("Email", PyVal.str "a@other.com"),
               ("Allocated Slot", PyVal.str "Invalid email domain")]] : List Row),
        ∃ v, rowGet r "Allocated Slot" = some (PyVal.str v) ∧
          (v ∈ Iiitk.capacity.map Prod.fst ∨ v = "No slot allocated" ∨
            v = "Invalid email domain")) :=
  ⟨c3_coverage_invariant.1
      [[("SLOT PREFERENCE : 1", PyVal.str "SLOT 1 (5:30AM TO 7:00 AM)"),
        ("SLOT PREFERENCE : 2", PyVal.str ""),
        ("SLOT PREFERENCE : 3", PyVal.str "")]]
      _ (decCap Gym.capacity "SLOT 1 (5:30AM TO 7:00 AM)") (by decide),
   c3_coverage_invariant.2 [[("Email", PyVal.str "a@other.com")]]
      _ Iiitk.capacity (by decide)⟩

theorem c4_order_outcome_field_witness :
    (([[("SLOT PREFERENCE : 1", PyVal.str "SLOT 1 (5:30AM TO 7:00 AM)"),
        ("SLOT PREFERENCE : 2", PyVal.str ""),
        ("SLOT PREFERENCE : 3", PyVal.str ""),
        ("Allocated Slot", PyVal.str "SLOT 1 (5:30AM TO 7:00 AM)")]] :
          List Row).length =
        ([[("SLOT PREFERENCE : 1", PyVal.str "SLOT 1 (5:30AM TO 7:00 AM)"),
           ("SLOT PREFERENCE : 2", PyVal.str ""),
           ("SLOT PREFERENCE : 3", PyVal.str "")]] : List Row).length ∧
      ∀ i, ∀ hi : i < ([[("SLOT PREFERENCE : 1",
              PyVal.str "SLOT 1 (5:30AM TO 7:00 AM)"),
            ("SLOT PREFERENCE : 2", PyVal.str ""),
            ("SLOT PREFERENCE : 3", PyVal.str ""),
            ("Allocated Slot", PyVal.str "SLOT 1 (5:30AM TO 7:00 AM)")]] :
              List Row).length,
        ∀ hi' : i < ([[("SLOT PREFERENCE : 1",
              PyVal.str "SLOT 1 (5:30AM TO 7:00 AM)"),
            ("SLOT PREFERENCE : 2", PyVal.str ""),
            ("SLOT PREFERENCE : 3", PyVal.str "")]] : List Row).length,
        ∃ v, ([[("SLOT PREFERENCE : 1", PyVal.str "SLOT 1 (5:30AM TO 7:00 AM)"),
            ("SLOT PREFERENCE : 2", PyVal.str ""),
            ("SLOT PREFERENCE : 3", PyVal.str ""),
            ("Allocated Slot", PyVal.str "SLOT 1 (5:30AM TO 7:00 AM)")]] :
              List Row).get ⟨i, hi⟩ =
            rowSet (([[("SLOT PREFERENCE : 1",
                PyVal.str "SLOT 1 (5:30AM TO 7:00 AM)"),
              ("SLOT PREFERENCE : 2", PyVal.str ""),
              ("SLOT PREFERENCE : 3", PyVal.str "")]] : List Row).get ⟨i, hi'⟩)
              "Allocated Slot" (PyVal.str v) ∧
          ("Allocated Slot" ∉ (([[("SLOT PREFERENCE : 1",
                PyVal.str "SLOT 1 (5:30AM TO 7:00 AM)"),
              ("SLOT PREFERENCE : 2", PyVal.str ""),
              ("SLOT PREFERENCE : 3", PyVal.str "")]] : List Row).get
                ⟨i, hi'⟩).map Prod.fst →
            ([[("SLOT PREFERENCE : 1", PyVal.str "SLOT 1 (5:30AM TO 7:00 AM)"),
              ("SLOT PREFERENCE : 2", PyVal.str ""),
              ("SLOT PREFERENCE : 3", PyVal.str ""),
              ("Allocated Slot", PyVal.str "SLOT 1 (5:30AM TO 7:00 AM)")]] :
                List Row).get ⟨i, hi⟩ =
              (([[("SLOT PREFERENCE : 1",
                  PyVal.str "SLOT 1 (5:30AM TO 7:00 AM)"),
                ("SLOT PREFERENCE : 2", PyVal.str ""),
                ("SLOT PREFERENCE : 3", PyVal.str "")]] : List Row).get
                  ⟨i, hi'⟩) ++ [("Allocated Slot", PyVal.str v)])) ∧
    (([[("Email", PyVal.str "a@other.com"),
        ("Allocated Slot", PyVal.str "Invalid email domain")]] :
          List Row).length =
        ([[("Email", PyVal.str "a@other.com")]] : List Row).length ∧
      ∀ i, ∀ hi : i < ([[("Email", PyVal.str "a@other.com"),
            ("Allocated Slot", PyVal.str "Invalid email domain")]] :
              List Row).length,
        ∀ hi' : i < ([[("Email", PyVal.str "a@other.com")]] : List Row).length,
        ∃ v, ([[("Email", PyVal.str "a@other.com"),
            ("Allocated Slot", PyVal.str "Invalid email domain")]] :
              List Row).get ⟨i, hi⟩ =
            rowSet (([[("Email", PyVal.str "a@other.com")]] : List Row).get
              ⟨i, hi'⟩) "Allocated Slot" (PyVal.str v) ∧
          ("Allocated Slot" ∉ (([[("Email", PyVal.str "a@other.com")]] :
              List Row).get ⟨i, hi'⟩).map Prod.fst →
            ([[("Email", PyVal.str "a@other.com"),
              ("Allocated Slot", PyVal.str "Invalid email domain")]] :
                List Row).get ⟨i, hi⟩ =
              (([[("Email", PyVal.str "a@other.com")]] : List Row).get
                ⟨i, hi'⟩) ++ [("Allocated Slot", PyVal.str v)])) :=
  ⟨c4_order_outcome_field.1
      [[("SLOT PREFERENCE : 1", PyVal.str "SLOT 1 (5:30AM TO 7:00 AM)"),
        ("SLOT PREFERENCE : 2", PyVal.str ""),
        ("SLOT PREFERENCE : 3", PyVal.str "")]]
      _ (decCap Gym.capacity "SLOT 1 (5:30AM TO 7:00 AM)") (by decide),
   c4_order_outcome_field.2 [[("Email", PyVal.str "a@other.com")]]
      _ Iiitk.capacity (by decide)⟩

theorem c5_invalid_email_short_circuits_witness :
    Iiitk.processRow Iiitk.capacity
        [("Email", PyVal.str " A@Other.com "),
         ("SLOT PREFERENCE : 1", PyVal.str "SLOT 6 (5:30PM TO 7:00PM)")] =
      Except.ok
        (rowSet [("Email", PyVal.str " A@Other.com "),
                 ("SLOT PREFERENCE : 1", PyVal.str "SLOT 6 (5:30PM TO 7:00PM)")]
          "Allocated Slot" (PyVal.str "Invalid email domain"),
         Iiitk.capacity) :=
  c5_invalid_email_short_circuits Iiitk.capacity
    [("Email", PyVal.str " A@Other.com "),
     ("SLOT PREFERENCE : 1", PyVal.str "SLOT 6 (5:30PM TO 7:00PM)")]
    "a@other.com" (by decide) (by decide)

theorem c6_first_fit_priority_witness :
    (∃ outA tl,
      ([[("SLOT PREFERENCE : 1", PyVal.str "X"),
         ("SLOT PREFERENCE : 2", PyVal.str ""),
         ("SLOT PREFERENCE : 3", PyVal.str ""),
         ("Allocated Slot", PyVal.str "X")],
        [("SLOT PREFERENCE : 1", PyVal.str "X"),
         ("SLOT PREFERENCE : 2", PyVal.str ""),
         ("SLOT PREFERENCE : 3", PyVal.str ""),
         ("Allocated Slot", PyVal.str "No slot allocated")]] : List Row) =
          outA :: tl ∧
        hasOutcome "X" outA = true ∧ ∀ r ∈ tl, hasOutcome "X" r = false) ∧
    (∃ outA tl,
      ([[("Email", PyVal.str "a@iiitk.ac.in"),
         ("SLOT PREFERENCE : 1", PyVal.str "X"),
         ("Allocated Slot", PyVal.str "X")],
        [("Email", PyVal.str "a@iiitk.ac.in"),
         ("SLOT PREFERENCE : 1", PyVal.str "X"),
         ("Allocated Slot", PyVal.str "No slot allocated")]] : List Row) =
          outA :: tl ∧
        hasOutcome "X" outA = true ∧ ∀ r ∈ tl, hasOutcome "X" r = false) :=
  ⟨c6_first_fit_priority.1 [("X", (1 : Int))] "X"
      [("SLOT PREFERENCE : 1", PyVal.str "X"),
       ("SLOT PREFERENCE : 2", PyVal.str ""),
       ("SLOT PREFERENCE : 3", PyVal.str "")]
      [[("SLOT PREFERENCE : 1", PyVal.str "X"),
        ("SLOT PREFERENCE : 2", PyVal.str ""),
        ("SLOT PREFERENCE : 3", PyVal.str "")]]
      [("X", (0 : Int))] _ [("X", (0 : Int))]
      (by decide) (by decide) (by decide) (by decide) (by decide),
   c6_first_fit_priority.2 [("X", (1 : Int))] "X"
      [("Email", PyVal.str "a@iiitk.ac.in"),
       ("SLOT PREFERENCE : 1", PyVal.str "X")]
      [[("Email", PyVal.str "a@iiitk.ac.in"),
        ("SLOT PREFERENCE : 1", PyVal.str "X")]]
      [("X", (0 : Int))] _ [("X", (0 : Int))] "a@iiitk.ac.in"
      (by decide) (by decide) (by decide) (by decide) (by decide) (by decide)
      (by decide) (by decide)⟩

theorem c7_capacity_mutation_discipline_witness :
    (decCap Gym.capacity "SLOT 1 (5:30AM TO 7:00 AM)" = Gym.capacity ∨
      ∃ s c, rowGet
          [("SLOT PREFERENCE : 1", PyVal.str "SLOT 1 (5:30AM TO 7:00 AM)"),
           ("SLOT PREFERENCE : 2", PyVal.str ""),
           ("SLOT PREFERENCE : 3", PyVal.str ""),
           ("Allocated Slot", PyVal.str "SLOT 1 (5:30AM TO 7:00 AM)")]
          "Allocated Slot" = some (PyVal.str s) ∧
        lookupCap Gym.capacity s = some c ∧ 0 < c ∧
        decCap Gym.capacity "SLOT 1 (5:30AM TO 7:00 AM)" = decCap Gym.capacity s ∧
        lookupCap (decCap Gym.capacity "SLOT 1 (5:30AM TO 7:00 AM)") s =
          some (c - 1) ∧
        ∀ t, t ≠ s →
          lookupCap (decCap Gym.capacity "SLOT 1 (5:30AM TO 7:00 AM)") t =
            lookupCap Gym.capacity t) ∧
    (decCap Iiitk.capacity "SLOT 7 (7:00PM TO 8:30PM)" = Iiitk.capacity ∨
      ∃ s c, rowGet
          [("Email", PyVal.str "a@iiitk.ac.in"),
           ("SLOT PREFERENCE : 1", PyVal.str " SLOT 7 (7:00PM TO 8:30PM) "),
           ("Allocated Slot", PyVal.str "SLOT 7 (7:00PM TO 8:30PM)")]
          "Allocated Slot" = some (PyVal.str s) ∧
        lookupCap Iiitk.capacity s = some c ∧ 0 < c ∧
        decCap Iiitk.capacity "SLOT 7 (7:00PM TO 8:30PM)" =
          decCap Iiitk.capacity s ∧
        lookupCap (decCap Iiitk.capacity "SLOT 7 (7:00PM TO 8:30PM)") s =
          some (c - 1) ∧
        ∀ t, t ≠ s →
          lookupCap (decCap Iiitk.capacity "SLOT 7 (7:00PM TO 8:30PM)") t =
            lookupCap Iiitk.capacity t) ∧
    ((∀ S c, lookupCap Gym.capacity S = some c →
        ∃ c', lookupCap (decCap Gym.capacity "SLOT 1 (5:30AM TO 7:00 AM)") S =
          some c' ∧ c' ≤ c) ∧
      ((∀ p ∈ Gym.capacity, 0 ≤ p.2) →
        ∀ p ∈ decCap Gym.capacity "SLOT 1 (5:30AM TO 7:00 AM)", 0 ≤ p.2)) ∧
    ((∀ S c, lookupCap Iiitk.capacity S = some c →
        ∃ c', lookupCap Iiitk.capacity S = some c' ∧ c' ≤ c) ∧
      ((∀ p ∈ Iiitk.capacity, 0 ≤ p.2) → ∀ p ∈ Iiitk.capacity, 0 ≤ p.2)) ∧
    hasOutcome "Z"
      [("SLOT PREFERENCE : 1", PyVal.str "Z"),
       ("SLOT PREFERENCE : 2", PyVal.str ""),
       ("SLOT PREFERENCE : 3", PyVal.str ""),
       ("Allocated Slot", PyVal.str "No slot allocated")] = false ∧
    hasOutcome "Z"
      [("Email", PyVal.str "a@iiitk.ac.in"),
       ("SLOT PREFERENCE : 1", PyVal.str "Z"),
       ("Allocated Slot", PyVal.str "No slot allocated")] = false :=
  ⟨c7_capacity_mutation_discipline.1 Gym.capacity
      [("SLOT PREFERENCE : 1", PyVal.str "SLOT 1 (5:30AM TO 7:00 AM)"),
       ("SLOT PREFERENCE : 2", PyVal.str ""),
       ("SLOT PREFERENCE : 3", PyVal.str "")]
      _ (decCap Gym.capacity "SLOT 1 (5:30AM TO 7:00 AM)")
      (by decide) (by decide),
   c7_capacity_mutation_discipline.2.1 Iiitk.capacity
      [("Email", PyVal.str "a@iiitk.ac.in"),
       ("SLOT PREFERENCE : 1", PyVal.str " SLOT 7 (7:00PM TO 8:30PM) ")]
      _ (decCap Iiitk.capacity "SLOT 7 (7:00PM TO 8:30PM)")
      (by decide) (by decide),
   c7_capacity_mutation_discipline.2.2.1
      [[("SLOT PREFERENCE : 1", PyVal.str "SLOT 1 (5:30AM TO 7:00 AM)"),
        ("SLOT PREFERENCE : 2", PyVal.str ""),
        ("SLOT PREFERENCE : 3", PyVal.str "")]]
      Gym.capacity
      [[("SLOT PREFERENCE : 1", PyVal.str "SLOT 1 (5:30AM TO 7:00 AM)"),
        ("SLOT PREFERENCE : 2", PyVal.str ""),
        ("SLOT PREFERENCE : 3", PyVal.str ""),
        ("Allocated Slot", PyVal.str "SLOT 1 (5:30AM TO 7:00 AM)")]]
      (decCap Gym.capacity "SLOT 1 (5:30AM TO 7:00 AM)")
      (by decide),
   c7_capacity_mutation_discipline.2.2.2.1
      [[("Email", PyVal.str "a@other.com")]] Iiitk.capacity
      [[("Email", PyVal.str "a@other.com"),
        ("Allocated Slot", PyVal.str "Invalid email domain")]] Iiitk.capacity
      (by decide),
   c7_capacity_mutation_discipline.2.2.2.2.1
      [[("SLOT PREFERENCE : 1", PyVal.str "Z"),
        ("SLOT PREFERENCE : 2", PyVal.str ""),
        ("SLOT PREFERENCE : 3", PyVal.str "")]]
      [("Z", (0 : Int))]
      [[("SLOT PREFERENCE : 1", PyVal.str "Z"),
        ("SLOT PREFERENCE : 2", PyVal.str ""),
        ("SLOT PREFERENCE : 3", PyVal.str ""),
        ("Allocated Slot", PyVal.str "No slot allocated")]]
      [("Z", (0 : Int))] "Z"
      (by decide) (by decide) (by decide) (by decide)
      [("SLOT PREFERENCE : 1", PyVal.str "Z"),
       ("SLOT PREFERENCE : 2", PyVal.str ""),
       ("SLOT PREFERENCE : 3", PyVal.str ""),
       ("Allocated Slot", PyVal.str "No slot allocated")] (by decide),
   c7_capacity_mutation_discipline.2.2.2.2.2
      [[("Email", PyVal.str "a@iiitk.ac.in"),
        ("SLOT PREFERENCE : 1", PyVal.str "Z")]]
      [("Z", (0 : Int))]
      [[("Email", PyVal.str "a@iiitk.ac.in"),
        ("SLOT PREFERENCE : 1", PyVal.str "Z"),
        ("Allocated Slot", PyVal.str "No slot allocated")]]
      [("Z", (0 : Int))] "Z"
      (by decide) (by decide) (by decide) (by decide) (by decide)
      [("Email", PyVal.str "a@iiitk.ac.in"),
       ("SLOT PREFERENCE : 1", PyVal.str "Z"),
       ("Allocated Slot", PyVal.str "No slot allocated")] (by decide)⟩

theorem c8_missing_pref_tolerated_ext_witness :
    (∃ res, Iiitk.processRow Iiitk.capacity [("Email", PyVal.str "x")] =
      Except.ok res) ∧
    Iiitk.processRow Iiitk.capacity [("Email", PyVal.str "a@iiitk.ac.in")] =
      Except.ok
        (rowSet [("Email", PyVal.str "a@iiitk.ac.in")] "Allocated Slot"
          (PyVal.str "No slot allocated"), Iiitk.capacity) :=
  ⟨c8_missing_pref_tolerated_ext.1 Iiitk.capacity [("Email", PyVal.str "x")]
      (by intro p hp; simp at hp; exact ⟨"x", by rw [hp]⟩),
   c8_missing_pref_tolerated_ext.2 Iiitk.capacity
      [("Email", PyVal.str "a@iiitk.ac.in")] "a@iiitk.ac.in"
      (by decide) (by decide) (by decide) (by decide)⟩

theorem c9_header_idempotent_ext_witness :
    Iiitk.fieldnamesOut ["Email", "Allocated Slot"] =
      ["Email", "Allocated Slot"] ∧
    (Iiitk.fieldnamesOut ["Email", "Allocated Slot"]).count "Allocated Slot" = 1 :=
  ⟨c9_header_idempotent_ext.1 ["Email", "Allocated Slot"] (by decide),
   c9_header_idempotent_ext.2 ["Email", "Allocated Slot"] (by decide)⟩

theorem c10_blank_email_invalid_witness :
    Iiitk.processRow Iiitk.capacity [("Name", PyVal.str "x")] =
      Except.ok
        (rowSet [("Name", PyVal.str "x")] "Allocated Slot"
          (PyVal.str "Invalid email domain"), Iiitk.capacity) :=
  c10_blank_email_invalid Iiitk.capacity [("Name", PyVal.str "x")]
    (Or.inl (by decide))
